import Mathlib

/-!
Verification of the FinTS/HBCI-style client core of toolbox-for-firefly-iii.

The repository ships only the vitest test suites for the FinTS segment
codec (`parsers.ts`), the message envelope builder (`message.ts`), the
response extractors (`extractors.ts`) and the utility module (`utils.ts`);
the implementation modules themselves are not part of the source tree.
Every definition below whose doc comment starts with "Modelled from the
spec:" is therefore a faithful shallow embedding of the behaviour pinned
down by the specification document (and exercised by the shipped tests),
not a transcription of TypeScript source.

Strings are modelled by Lean `String` (a wrapper around `List Char`);
segment maps by ordered association lists from segment type to the list
of raw segment strings of that type, in arrival order.
-/

/-! ### Characters and decimal numerals -/

/-- The single-quote character `'` that terminates FinTS segments. -/
def qc : Char := Char.ofNat 39

/-- The one-character string holding `qc`. -/
def quoteStr : String := String.singleton qc

/-- Uppercase ASCII letter test (`A`–`Z`). -/
def isUpperAlpha (c : Char) : Bool := 65 ≤ c.toNat && c.toNat ≤ 90

/-- ASCII digit test (`0`–`9`). -/
def isDigitCh (c : Char) : Bool := 48 ≤ c.toNat && c.toNat ≤ 57

/-- The four reserved FinTS characters `+`, `:`, `@`, `'`. -/
def isReserved (c : Char) : Bool := c == '+' || c == ':' || c == '@' || c == qc

/-- The ASCII digit character for `d < 10`. -/
def digitChar (d : Nat) : Char := Char.ofNat (48 + d)

/-- Numeric value of an ASCII digit character. -/
def digitVal (c : Char) : Nat := c.toNat - 48

/-- Interpret a list of ASCII digit characters as a decimal number
(leading zeros allowed). -/
def parseDigits (l : List Char) : Nat := l.foldl (fun a c => 10 * a + digitVal c) 0

theorem digitVal_digitChar : ∀ d, d < 10 → digitVal (digitChar d) = d := by decide

theorem isDigitCh_digitChar : ∀ d, d < 10 → isDigitCh (digitChar d) = true := by decide

theorem parseDigits_foldl (l : List Char) :
    ∀ a : Nat, l.foldl (fun a c => 10 * a + digitVal c) a = a * 10 ^ l.length + parseDigits l := by
  induction l with
  | nil => intro a; simp [parseDigits]
  | cons c t ih =>
    intro a
    have h1 := ih (10 * a + digitVal c)
    have h2 := ih (digitVal c)
    simp only [List.foldl_cons, List.length_cons, parseDigits, Nat.mul_zero, Nat.zero_add] at *
    rw [h1, h2]
    ring

theorem parseDigits_append (l₁ l₂ : List Char) :
    parseDigits (l₁ ++ l₂) = parseDigits l₁ * 10 ^ l₂.length + parseDigits l₂ := by
  have h := parseDigits_foldl l₂ (parseDigits l₁)
  simpa [parseDigits, List.foldl_append] using h

/-- Decimal digit list of a natural number, fuelled so that it is
structurally recursive (and hence evaluable by the kernel). -/
def natDigitsAux : Nat → Nat → List Char
  | 0, _ => []
  | fuel + 1, n =>
    if n < 10 then [digitChar n] else natDigitsAux fuel (n / 10) ++ [digitChar (n % 10)]

/-- Decimal digit list of a natural number (no leading zeros). -/
def natDigits (n : Nat) : List Char := natDigitsAux (n + 1) n

/-- Decimal string of a natural number, as produced by JavaScript
template interpolation of a number. -/
def natToDec (n : Nat) : String := String.mk (natDigits n)

theorem natDigitsAux_congr : ∀ f₁ f₂ n, n < f₁ → n < f₂ → natDigitsAux f₁ n = natDigitsAux f₂ n := by
  intro f₁
  induction f₁ with
  | zero => intro f₂ n h; omega
  | succ f ih =>
    intro f₂ n h₁ h₂
    match f₂, h₂ with
    | g + 1, h₂ =>
      simp only [natDigitsAux]
      by_cases h10 : n < 10
      · simp [h10]
      · have hpos : 0 < n := by omega
        have hlt : n / 10 < n := Nat.div_lt_self hpos (by norm_num)
        simp only [h10, if_false]
        rw [ih g (n / 10) (by omega) (by omega)]

theorem natDigits_def (n : Nat) :
    natDigits n = if n < 10 then [digitChar n] else natDigits (n / 10) ++ [digitChar (n % 10)] := by
  show natDigitsAux (n + 1) n = _
  rw [natDigitsAux]
  by_cases h10 : n < 10
  · simp [h10]
  · have hpos : 0 < n := by omega
    have hlt : n / 10 < n := Nat.div_lt_self hpos (by norm_num)
    simp only [h10, if_false]
    rw [natDigitsAux_congr n (n / 10 + 1) (n / 10) (by omega) (by omega)]
    rfl

theorem parseDigits_natDigits (n : Nat) : parseDigits (natDigits n) = n := by
  induction n using Nat.strong_induction_on with
  | _ n ih =>
    rw [natDigits_def]
    by_cases h10 : n < 10
    · simp only [h10, if_true]
      simp [parseDigits, digitVal_digitChar n h10]
    · have hpos : 0 < n := by omega
      have hlt : n / 10 < n := Nat.div_lt_self hpos (by norm_num)
      simp only [h10, if_false]
      rw [parseDigits_append]
      have hmod : n % 10 < 10 := Nat.mod_lt n (by norm_num)
      have hone : parseDigits [digitChar (n % 10)] = n % 10 := by
        simp [parseDigits, digitVal_digitChar _ hmod]
      rw [hone, ih (n / 10) hlt]
      simp only [List.length_cons, List.length_nil, pow_one]
      omega

theorem natDigits_len_le : ∀ k n : Nat, n < 10 ^ (k + 1) → (natDigits n).length ≤ k + 1 := by
  intro k
  induction k with
  | zero =>
    intro n h
    rw [natDigits_def]
    simp [show n < 10 by simpa using h]
  | succ k ih =>
    intro n h
    rw [natDigits_def]
    by_cases h10 : n < 10
    · simp [h10]
    · simp only [h10, if_false, List.length_append, List.length_cons, List.length_nil]
      have hdiv : n / 10 < 10 ^ (k + 1) := by
        refine (Nat.div_lt_iff_lt_mul (by norm_num)).mpr ?_
        calc n < 10 ^ (k + 1 + 1) := h
        _ = 10 ^ (k + 1) * 10 := by ring
      have := ih (n / 10) hdiv
      omega

theorem natDigits_len_pos (n : Nat) : 1 ≤ (natDigits n).length := by
  rw [natDigits_def]
  split <;> simp

theorem natDigits_digits (n : Nat) : ∀ c ∈ natDigits n, isDigitCh c = true := by
  induction n using Nat.strong_induction_on with
  | _ n ih =>
    rw [natDigits_def]
    by_cases h10 : n < 10
    · simp only [h10, if_true, List.mem_singleton]
      rintro c rfl
      exact isDigitCh_digitChar n h10
    · have hpos : 0 < n := by omega
      have hlt : n / 10 < n := Nat.div_lt_self hpos (by norm_num)
      have hmod : n % 10 < 10 := Nat.mod_lt n (by norm_num)
      simp only [h10, if_false, List.mem_append, List.mem_singleton]
      rintro c (hc | rfl)
      · exact ih (n / 10) hlt c hc
      · exact isDigitCh_digitChar _ hmod

/-- Left-pad a digit list with `'0'` up to width `k`
(the semantics of JavaScript `padStart(k, "0")`). -/
def padZeros (k : Nat) (l : List Char) : List Char := List.replicate (k - l.length) '0' ++ l

theorem padZeros_length (k : Nat) (l : List Char) : (padZeros k l).length = max k l.length := by
  simp [padZeros]
  omega

theorem parseDigits_replicate_zero : ∀ m, parseDigits (List.replicate m '0') = 0 := by
  intro m
  induction m with
  | zero => rfl
  | succ m ih =>
    have : parseDigits (List.replicate (m + 1) '0') = parseDigits (List.replicate m '0') := by
      simp [List.replicate_succ, parseDigits, digitVal]
    rw [this, ih]

theorem parseDigits_padZeros (k : Nat) (l : List Char) :
    parseDigits (padZeros k l) = parseDigits l := by
  simp [padZeros, parseDigits_append, parseDigits_replicate_zero]

theorem padZeros_digits (k : Nat) (l : List Char) (h : ∀ c ∈ l, isDigitCh c = true) :
    ∀ c ∈ padZeros k l, isDigitCh c = true := by
  simp only [padZeros, List.mem_append]
  rintro c (hc | hc)
  · rcases List.eq_of_mem_replicate hc with rfl
    decide
  · exact h c hc

theorem strData_append (a b : String) : (a ++ b).data = a.data ++ b.data := rfl

theorem strLength_data (s : String) : s.length = s.data.length := rfl

/-! ### Segment codec -/

/-- Helper: prepend a chunk of characters to the first part of a split
result (used to build splits right-to-left). -/
def prependHead (pre : List Char) : List (List Char) → List (List Char)
  | [] => [pre]
  | h :: t => (pre ++ h) :: t

/-- Modelled from the spec: splitting on an unescaped delimiter, the
core of `parse` / `extractElements` of the missing `parsers.ts`.  A `?`
escapes the character that follows it; the escaped pair is kept verbatim
inside the current part. -/
def splitUnescaped (q : Char) : List Char → List (List Char)
  | [] => [[]]
  | c :: rest =>
    if c = '?' then
      match rest with
      | [] => [[c]]
      | d :: rest' => prependHead [c, d] (splitUnescaped q rest')
    else if c = q then [] :: splitUnescaped q rest
    else prependHead [c] (splitUnescaped q rest)

/-- Plain (escape-blind) split on a delimiter, the semantics of
JavaScript `String.split`. -/
def splitPlain (q : Char) : List Char → List (List Char)
  | [] => [[]]
  | c :: rest =>
    if c = q then [] :: splitPlain q rest
    else prependHead [c] (splitPlain q rest)

/-- Modelled from the spec: the header-shape test of the missing
`parseSegments` — a part is kept only when it begins with
`<UPPERCASE letters>{5,6}:<digits>:<digits>`, mirroring the anchored
regex on the candidate part. -/
def validHeader (l : List Char) : Bool :=
  let letters := l.takeWhile isUpperAlpha
  ((letters.length == 5) || (letters.length == 6)) &&
  (match l.drop letters.length with
   | ':' :: r1 =>
     let d1 := r1.takeWhile isDigitCh
     (!d1.isEmpty) &&
     (match r1.drop d1.length with
      | ':' :: r2 => !(r2.takeWhile isDigitCh).isEmpty
      | _ => false)
   | _ => false)

/-- Segment type code: the leading run of uppercase letters. -/
def segType (l : List Char) : String := String.mk (l.takeWhile isUpperAlpha)

/-- An ordered multimap from segment type to the raw segment strings of
that type, in arrival order. -/
abbrev SegmentMap := List (String × List String)

/-- First-match lookup in a segment map. -/
def lookupSM (m : SegmentMap) (k : String) : Option (List String) :=
  match m with
  | [] => none
  | (k', v) :: rest => if k' = k then some v else lookupSM rest k

/-- All raw segments of one type, `[]` when the type is absent. -/
def entriesOf (m : SegmentMap) (k : String) : List String := (lookupSM m k).getD []

/-- Append a raw segment under its type, creating the key on first use. -/
def insertAppend (m : SegmentMap) (k : String) (v : String) : SegmentMap :=
  match m with
  | [] => [(k, [v])]
  | (k', vs) :: rest => if k' = k then (k', vs ++ [v]) :: rest else (k', vs) :: insertAppend rest k v

/-- One folding step of `parseSegments`: keep a part only when its
header shape is valid. -/
def insertPart (m : SegmentMap) (p : List Char) : SegmentMap :=
  if validHeader p then insertAppend m (segType p) (String.mk p) else m

/-- Fold the candidate parts into a segment map, silently dropping parts
whose header shape is invalid. -/
def buildMap (parts : List (List Char)) : SegmentMap := parts.foldl insertPart []

/-- Modelled from the spec: `parseSegments` of the missing `parsers.ts` —
split the response on unescaped `'` and keep the parts with a valid
segment header, grouped by type in encounter order.  Total by
construction: malformed parts are dropped, never raised. -/
def parseSegments (s : String) : SegmentMap := buildMap (splitUnescaped qc s.data)

/-- Modelled from the spec: the element-level unescaping done during
`extractElements` — `?X → X` for each of the four reserved characters;
a `?` before any other character is kept verbatim. -/
def unescapeEl : List Char → List Char
  | [] => []
  | c :: rest =>
    if c = '?' then
      match rest with
      | [] => [c]
      | d :: rest' => if isReserved d then d :: unescapeEl rest' else c :: unescapeEl (d :: rest')
    else c :: unescapeEl rest

/-- Modelled from the spec: removal of the leading
`<TYPE>:<num>:<version>(:<ref>)?+?` header by `extractElements`;
a part with no such header is returned unchanged (the semantics of a
JavaScript `replace` with an anchored regex). -/
def stripHeader (l : List Char) : List Char :=
  let letters := l.takeWhile isUpperAlpha
  if (letters.length == 5) || (letters.length == 6) then
    match l.drop letters.length with
    | ':' :: r1 =>
      let d1 := r1.takeWhile isDigitCh
      if d1.isEmpty then l
      else
        match r1.drop d1.length with
        | ':' :: r2 =>
          let d2 := r2.takeWhile isDigitCh
          if d2.isEmpty then l
          else
            let r3 := r2.drop d2.length
            let r4 := match r3 with
              | ':' :: rr =>
                let d3 := rr.takeWhile isDigitCh
                if d3.isEmpty then r3 else rr.drop d3.length
              | _ => r3
            match r4 with
            | '+' :: r5 => r5
            | _ => r4
        | _ => l
    | _ => l
  else l

/-- Modelled from the spec: `extractElements` of the missing
`parsers.ts` — strip the segment header, split the remainder on
unescaped `+` (preserving empty elements), and unescape each element.
Nothing after the header yields no elements. -/
def extractElements (s : String) : List String :=
  let rest := stripHeader s.data
  if rest.isEmpty then []
  else (splitUnescaped '+' rest).map (fun e => String.mk (unescapeEl e))

/-- Modelled from the spec: `encode` of the missing `utils.ts` — escape
each of `+`, `:`, `@`, `'` with a leading `?`. -/
def encodeChar (c : Char) : List Char := if isReserved c then ['?', c] else [c]

/-- Modelled from the spec: `encodeFinTS` — escape reserved characters
throughout a text. -/
def encodeFinTS (s : String) : String := String.mk (s.data.flatMap encodeChar)

example : entriesOf (parseSegments ("HNHBK:1:3+000000000150+300+DIALOG123+1" ++ quoteStr))
    "HNHBK" = ["HNHBK:1:3+000000000150+300+DIALOG123+1"] := by decide

example : (parseSegments ("HIRMS:3:2+first" ++ quoteStr ++ "HIRMS:4:2+second" ++ quoteStr)) =
    [("HIRMS", ["HIRMS:3:2+first", "HIRMS:4:2+second"])] := by decide

example : parseSegments "   \n\t  " = [] := by decide

example : (parseSegments ("HNHBK:1:3+valid" ++ quoteStr ++ "invalid data" ++ quoteStr ++
    "HIRMG:2:2+valid" ++ quoteStr)).length = 2 := by decide

example : extractElements "TESTT:1:1+first++third" = ["first", "", "third"] := by decide

example : extractElements "TESTT:1:1+value with ?+ plus" = ["value with + plus"] := by decide

example : extractElements "TESTT:1:1+a?+b?:c?@d" = ["a+b:c@d"] := by decide

example : extractElements "TESTT:1:1" = [] := by decide

example : extractElements "HITAN:4:6:5+4++ORDER_REF_123+Please confirm" =
    ["4", "", "ORDER_REF_123", "Please confirm"] := by decide

example : encodeFinTS "hello+world" = "hello?+world" := by decide

example : encodeFinTS ("a+b:c@d" ++ quoteStr ++ "e") = "a?+b?:c?@d?" ++ quoteStr ++ "e" := by decide

/-! ### Message envelope builder -/

theorem data_mk (l : List Char) : (String.mk l).data = l := rfl

/-- Modelled from the spec: the `HNHBK:1:3+<len12>+<version>+<dialogId>+<msgNumber>'`
header emitted by `wrap` of the missing `message.ts` (protocol version 300). -/
def hnhbkHeader (lenField : List Char) (dialogId : String) (msgNumber : Nat) : String :=
  "HNHBK:1:3+" ++ String.mk lenField ++ "+300+" ++ dialogId ++ "+" ++ natToDec msgNumber ++ quoteStr

/-- Modelled from the spec: the `HNHBS:<n+2>:1+<msgNumber>'` footer emitted
by `wrap` for `n` body segments. -/
def hnhbsFooter (segCount msgNumber : Nat) : String :=
  "HNHBS:" ++ natToDec (segCount + 2) ++ ":1+" ++ natToDec msgNumber ++ quoteStr

/-- Modelled from the spec: `wrapMessage` of the missing `message.ts` —
assemble header + body + footer with a 12-zero placeholder length field,
then substitute the zero-padded total length of the assembled message
(the placeholder is itself 12 characters, so the length is computed
including the length field's own 12-digit representation). -/
def wrapMessage (dialogId : String) (msgNumber : Nat) (segments : List String) : String :=
  let body := String.join segments
  let footer := hnhbsFooter segments.length msgNumber
  let provisional := hnhbkHeader (List.replicate 12 '0') dialogId msgNumber ++ body ++ footer
  hnhbkHeader (padZeros 12 (natDigits provisional.length)) dialogId msgNumber ++ body ++ footer

/-- Modelled from the spec: the `HNVSK:998:3+...:<bankCode>:<userId>...`
security-header segment of `wrapAuthenticatedMessage` (country code 280,
the system id embedded in the security identification details). -/
def buildHNVSK (bankCode userId systemId : String) : String :=
  "HNVSK:998:3+PIN:1+998+1+1::" ++ systemId ++ "+1+2:2:13:@8@00000000:5:1+280:" ++
    bankCode ++ ":" ++ userId ++ ":V:0:0+0" ++ quoteStr

/-- Modelled from the spec: the `HNVSD:999:1+@<len>@<joined body>'`
security-data segment — the joined body text prefixed with its own
exact character length. -/
def buildHNVSD (segments : List String) : String :=
  "HNVSD:999:1+@" ++ natToDec (String.join segments).length ++ "@" ++
    String.join segments ++ quoteStr

/-- Modelled from the spec: `wrapAuthenticatedMessage` of the missing
`message.ts` — the security header/data pair becomes the body of a
standard wrapped message. -/
def wrapAuthenticatedMessage (dialogId : String) (msgNumber : Nat)
    (bankCode userId systemId : String) (segments : List String) : String :=
  wrapMessage dialogId msgNumber [buildHNVSK bankCode userId systemId, buildHNVSD segments]

/-- Everything of the wrapped message after the 12-character length field. -/
def wrapTail (d : String) (n : Nat) (segs : List String) : List Char :=
  ("+300+" ++ d ++ "+" ++ natToDec n ++ quoteStr ++ String.join segs ++
    hnhbsFooter segs.length n).data

theorem wrap_decomp (len : List Char) (d : String) (n : Nat) (segs : List String) :
    (hnhbkHeader len d n ++ String.join segs ++ hnhbsFooter segs.length n).data
      = "HNHBK:1:3+".data ++ (len ++ wrapTail d n segs) := by
  simp [hnhbkHeader, wrapTail, strData_append, data_mk, List.append_assoc]

theorem wrapTail_head (d : String) (n : Nat) (segs : List String) :
    (wrapTail d n segs).take 1 = ['+'] := by
  have h : ("+300+" : String).data = '+' :: ('3' :: ('0' :: ('0' :: ('+' :: [])))) := rfl
  simp [wrapTail, strData_append, h]

theorem wrapMessage_data (d : String) (n : Nat) (segs : List String) :
    (wrapMessage d n segs).data =
      "HNHBK:1:3+".data ++
        (padZeros 12 (natDigits (22 + (wrapTail d n segs).length)) ++ wrapTail d n segs) := by
  have hprov :
      (hnhbkHeader (List.replicate 12 '0') d n ++ String.join segs ++
        hnhbsFooter segs.length n).length = 22 + (wrapTail d n segs).length := by
    rw [strLength_data, wrap_decomp]
    simp [List.length_append]
    omega
  show (hnhbkHeader (padZeros 12 (natDigits
      (hnhbkHeader (List.replicate 12 '0') d n ++ String.join segs ++
        hnhbsFooter segs.length n).length)) d n ++ String.join segs ++
        hnhbsFooter segs.length n).data = _
  rw [hprov, wrap_decomp]

/-- The 12 characters of a message at the position of the `HNHBK` length
field (characters 10–21). -/
def declaredLenField (s : String) : List Char := (s.data.drop 10).take 12

/-- The length-framing contract of a wrapped message: it begins with
`HNHBK:1:3+`, characters 10–21 are 12 ASCII digits whose decimal value
is the exact total character length of the message, and the field is
followed by the `+` delimiter. -/
def headerLenOK (s : String) : Prop :=
  s.data.take 10 = "HNHBK:1:3+".data ∧
  (declaredLenField s).length = 12 ∧
  (∀ c ∈ declaredLenField s, isDigitCh c = true) ∧
  parseDigits (declaredLenField s) = s.length ∧
  (s.data.drop 22).take 1 = ['+']

theorem wrapMessage_headerLenOK (d : String) (n : Nat) (segs : List String)
    (h : (wrapMessage d n segs).length < 10 ^ 12) :
    headerLenOK (wrapMessage d n segs) := by
  have h10 : ("HNHBK:1:3+".data).length = 10 := rfl
  have hdata := wrapMessage_data d n segs
  set T := wrapTail d n segs with hTdef
  set P := 22 + T.length with hPdef
  set F := padZeros 12 (natDigits P) with hFdef
  have hlen : (wrapMessage d n segs).length = 10 + F.length + T.length := by
    rw [strLength_data, hdata]
    simp [List.length_append, h10]
    omega
  have hFlen0 : F.length = max 12 (natDigits P).length := padZeros_length _ _
  have hPle : P ≤ (wrapMessage d n segs).length := by
    rw [hlen, hFlen0]
    omega
  have hP12 : P < 10 ^ 12 := lt_of_le_of_lt hPle h
  have hdig : (natDigits P).length ≤ 12 := natDigits_len_le 11 P hP12
  have hFlen : F.length = 12 := by
    rw [hFlen0]
    omega
  have hslen : (wrapMessage d n segs).length = P := by
    rw [hlen, hFlen]
  have hfield : declaredLenField (wrapMessage d n segs) = F := by
    unfold declaredLenField
    rw [hdata, ← h10, List.drop_left, ← hFlen, List.take_left]
  refine ⟨?_, ?_, ?_, ?_, ?_⟩
  · rw [hdata, ← h10, List.take_left]
  · rw [hfield, hFlen]
  · rw [hfield, hFdef]
    exact padZeros_digits _ _ (natDigits_digits P)
  · rw [hfield, hFdef, parseDigits_padZeros, parseDigits_natDigits, hslen]
  · have h22 : ("HNHBK:1:3+".data ++ F).length = 22 := by
      simp [List.length_append, h10, hFlen]
    rw [hdata, ← List.append_assoc, ← h22, List.drop_left]
    exact wrapTail_head d n segs

theorem strEq_of_data (a b : String) (h : a.data = b.data) : a = b :=
  congrArg String.mk h

theorem strAppend_assoc (a b c : String) : (a ++ b) ++ c = a ++ (b ++ c) :=
  strEq_of_data _ _ (by simp [strData_append])

theorem strJoin_two (a b : String) : String.join [a, b] = a ++ b :=
  strEq_of_data _ _ (by simp [String.join, strData_append])

/-- Claim C1: for every dialog id, message number and list of body
segments (in the regime where the total length fits the 12-digit field),
the output of `wrapMessage` — and of `wrapAuthenticatedMessage` — begins
with an `HNHBK` header whose 12-digit zero-padded length field equals the
exact total character length of the fully assembled output text, the
length being computed after the 12-digit field itself is substituted in. -/
theorem C1_wrap_length_field :
    (∀ (d : String) (n : Nat) (segs : List String),
      (wrapMessage d n segs).length < 10 ^ 12 → headerLenOK (wrapMessage d n segs)) ∧
    (∀ (d : String) (n : Nat) (bc uid sid : String) (segs : List String),
      (wrapAuthenticatedMessage d n bc uid sid segs).length < 10 ^ 12 →
        headerLenOK (wrapAuthenticatedMessage d n bc uid sid segs)) :=
  ⟨wrapMessage_headerLenOK,
   fun d n _ _ _ _ h => wrapMessage_headerLenOK d n _ h⟩

set_option maxRecDepth 100000 in
/-- Witness for C1 at the concrete inputs of the shipped tests. -/
theorem C1_wrap_length_field_witness :
    headerLenOK (wrapMessage "DIALOG123" 1 ["TEST:2:1+data" ++ quoteStr]) ∧
    headerLenOK (wrapAuthenticatedMessage "DIALOG123" 1 "12345678" "testuser" "SYS001"
      ["TEST:2:1+data" ++ quoteStr]) :=
  ⟨C1_wrap_length_field.1 "DIALOG123" 1 ["TEST:2:1+data" ++ quoteStr] (by decide),
   C1_wrap_length_field.2 "DIALOG123" 1 "12345678" "testuser" "SYS001"
     ["TEST:2:1+data" ++ quoteStr] (by decide)⟩

/-- Claim C4: for every list of k body segments (including k = 0), the
message produced by `wrapMessage` ends with a footer segment whose
segment number is exactly k + 2 and which repeats the message number. -/
theorem C4_wrapMessage_footer :
    ∀ (d : String) (n : Nat) (segs : List String), ∃ pre : String,
      wrapMessage d n segs =
        pre ++ ("HNHBS:" ++ natToDec (segs.length + 2) ++ ":1+" ++ natToDec n ++ quoteStr) := by
  intro d n segs
  exact ⟨_, rfl⟩

/-- Claim C9: for every input, the output of `wrapAuthenticatedMessage`
contains the security-data segment `HNVSD:999:1` whose element is
`@<len>@<joined body>` with `<len>` the exact character length of the
joined, unwrapped body text, and the `HNVSK:998:3` / `HNVSD:999:1` pair
forms the body of a standard wrapped message bounded by an `HNHBK`
header and an `HNHBS` footer. -/
theorem C9_wrapAuthenticatedMessage_structure :
    ∀ (d : String) (n : Nat) (bc uid sid : String) (segs : List String),
      ∃ lenField : List Char,
        (∀ c ∈ lenField, isDigitCh c = true) ∧
        wrapAuthenticatedMessage d n bc uid sid segs =
          hnhbkHeader lenField d n ++
            buildHNVSK bc uid sid ++
            ("HNVSD:999:1+@" ++ natToDec (String.join segs).length ++ "@" ++
              String.join segs ++ quoteStr) ++
            ("HNHBS:" ++ natToDec 4 ++ ":1+" ++ natToDec n ++ quoteStr) := by
  intro d n bc uid sid segs
  refine ⟨padZeros 12 (natDigits
      ((hnhbkHeader (List.replicate 12 '0') d n ++
        String.join [buildHNVSK bc uid sid, buildHNVSD segs] ++
        hnhbsFooter 2 n).length)),
    padZeros_digits _ _ (natDigits_digits _), ?_⟩
  show hnhbkHeader _ d n ++ String.join [buildHNVSK bc uid sid, buildHNVSD segs] ++
      hnhbsFooter 2 n = _
  rw [strJoin_two, ← strAppend_assoc]
  rfl

/-! ### Response extractors -/

/-- A fatal bank-side rejection, carrying the offending response code
and its message. -/
structure FinTSError where
  code : String
  message : String
deriving DecidableEq

deriving instance DecidableEq for Except

/-- Modelled from the spec: extraction of an embedded response code from
one element of a `HIRMG`/`HIRMS` segment — exactly four leading digits,
then `:<reference>:`, then the message text. -/
def feedbackCode (el : String) : Option (String × String) :=
  let ds := el.data.takeWhile isDigitCh
  if ds.length == 4 then
    match el.data.drop 4 with
    | ':' :: r1 =>
      let ref := r1.takeWhile (fun c => c ≠ ':')
      match r1.drop ref.length with
      | ':' :: msg => some (String.mk ds, String.mk msg)
      | _ => none
    | _ => none
  else none

/-- All (code, message) pairs embedded in the `HIRMG` entries followed by
the `HIRMS` entries, in encounter order. -/
def responseCodes (m : SegmentMap) : List (String × String) :=
  (entriesOf m "HIRMG" ++ entriesOf m "HIRMS").flatMap
    (fun seg => (extractElements seg).filterMap feedbackCode)

/-- A fatal code: numeric value at least 9000. -/
def isErrCode (p : String × String) : Bool := decide (9000 ≤ parseDigits p.1.data)

/-- Modelled from the spec: `checkForErrors` of the missing
`extractors.ts` — scan every `HIRMG` and every `HIRMS` entry for embedded
4-digit codes and reject with the first code ≥ 9000 found; codes below
9000 (warnings included) never raise, and the absence of both segment
types is not an error. -/
def checkForErrors (m : SegmentMap) : Except FinTSError Unit :=
  match (responseCodes m).find? isErrCode with
  | some p => .error ⟨p.1, p.2⟩
  | none => .ok ()

/-- Element 3 (0-indexed, counting the segment header as element 0) of a
raw `HNHBK` segment, with `"0"` substituted when absent or empty. -/
def dialogIdOf (seg : String) : String :=
  let e := ((splitPlain '+' seg.data).map String.mk).getD 3 ""
  if e = "" then "0" else e

/-- Modelled from the spec: `extractDialogId` of the missing
`extractors.ts` — the dialog id position of the first `HNHBK` entry,
`"0"` when the element is missing, an error when `HNHBK` is absent. -/
def extractDialogId (m : SegmentMap) : Except String String :=
  match entriesOf m "HNHBK" with
  | [] => .error "Invalid response: Missing HNHBK segment"
  | seg :: _ => .ok (dialogIdOf seg)

/-- A pending TAN challenge surfaced to the caller. -/
structure TanChallenge where
  dialogId : String
  orderRef : String
  challengeText : String
deriving DecidableEq

/-- Modelled from the spec: the non-empty default challenge text
substituted when the bank sends a blank challenge. -/
def defaultChallengeText : String := "Please confirm the request in your banking app"

/-- Dialog id via the `extractDialogId` extractor, tolerating a missing
`HNHBK` segment. -/
def dialogIdOrEmpty (m : SegmentMap) : String :=
  match extractDialogId m with
  | .ok d => d
  | .error _ => ""

/-- Modelled from the spec: `checkTanRequired` of the missing
`extractors.ts` — requires a `HITAN` entry; element 0 is the TAN process
indicator, element 2 the order reference, element 3 the challenge text;
when both indicator and text are blank there is no real challenge, and a
blank text alone is replaced by the non-empty default. -/
def checkTanRequired (m : SegmentMap) : Option TanChallenge :=
  match entriesOf m "HITAN" with
  | [] => none
  | seg :: _ =>
    let els := extractElements seg
    let tanProcess := els.getD 0 ""
    let text := els.getD 3 ""
    if tanProcess = "" ∧ text = "" then none
    else some { dialogId := dialogIdOrEmpty m
              , orderRef := els.getD 2 ""
              , challengeText := if text = "" then defaultChallengeText else text }

example : checkForErrors [("HIRMG", ["HIRMG:2:2+0010::Success"])] = .ok () := by decide

example : checkForErrors [("HIRMG", ["HIRMG:2:2+3010::Warning message"])] = .ok () := by decide

example : checkForErrors [("HIRMG", ["HIRMG:2:2+9000::Error message"])] =
    .error ⟨"9000", "Error message"⟩ := by decide

example : checkForErrors [("HIRMS", ["HIRMS:3:2+9010::Invalid PIN"])] =
    .error ⟨"9010", "Invalid PIN"⟩ := by decide

example : checkForErrors [("HIRMG", ["HIRMG:2:2+0010::Success"]),
    ("HIRMS", ["HIRMS:3:2+9999::Critical error"])] =
    .error ⟨"9999", "Critical error"⟩ := by decide

example : checkForErrors [("HIRMG", ["HIRMG:2:2+8999::Not an error"])] = .ok () := by decide

example : extractDialogId [("HNHBK", ["HNHBK:1:3+000000000150+300+DIALOG123+1"])] =
    .ok "DIALOG123" := by decide

example : extractDialogId [("HNHBK", ["HNHBK:1:3+000000000150+300"])] = .ok "0" := by decide

example : checkTanRequired [("HNHBK", ["HNHBK:1:3+000000000150+300+DIALOG123+1"]),
    ("HITAN", ["HITAN:4:6:5+4++ORDER_REF_123+Please confirm"])] =
    some ⟨"DIALOG123", "ORDER_REF_123", "Please confirm"⟩ := by decide

example : checkTanRequired [("HNHBK", ["HNHBK:1:3+000000000150+300+DIALOG123+1"]),
    ("HITAN", ["HITAN:4:6:5+4++++"])] =
    some ⟨"DIALOG123", "", defaultChallengeText⟩ := by decide

example : checkTanRequired [("HNHBK", ["HNHBK:1:3+000000000150+300+DIALOG123+1"]),
    ("HITAN", ["HITAN:4:6:5++++"])] = none := by decide

/-- Claim C2: `checkForErrors` rejects iff some `HIRMG` or `HIRMS` entry
contains an embedded 4-digit code ≥ 9000; the error carries the first
offending code and its message; codes below 9000 never raise; a map with
neither `HIRMG` nor `HIRMS` raises nothing. -/
theorem C2_checkForErrors (m : SegmentMap) :
    ((∃ e, checkForErrors m = .error e) ↔
      ∃ p ∈ responseCodes m, 9000 ≤ parseDigits p.1.data) ∧
    (∀ e, checkForErrors m = .error e →
      (responseCodes m).find? isErrCode = some (e.code, e.message)) ∧
    (entriesOf m "HIRMG" = [] → entriesOf m "HIRMS" = [] → checkForErrors m = .ok ()) := by
  refine ⟨?_, ?_, ?_⟩
  · constructor
    · rintro ⟨e, he⟩
      unfold checkForErrors at he
      cases hf : (responseCodes m).find? isErrCode with
      | none => rw [hf] at he; exact absurd he (by simp)
      | some p =>
        have hp := List.find?_some hf
        have hm := List.mem_of_find?_eq_some hf
        refine ⟨p, hm, ?_⟩
        simpa [isErrCode] using hp
    · rintro ⟨p, hm, hp⟩
      unfold checkForErrors
      cases hf : (responseCodes m).find? isErrCode with
      | none =>
        have hnone := List.find?_eq_none.mp hf p hm
        simp [isErrCode] at hnone
        omega
      | some q => exact ⟨⟨q.1, q.2⟩, rfl⟩
  · intro e he
    unfold checkForErrors at he
    cases hf : (responseCodes m).find? isErrCode with
    | none => rw [hf] at he; exact absurd he (by simp)
    | some p =>
      rw [hf] at he
      have : FinTSError.mk p.1 p.2 = e := by
        exact (Except.error.injEq _ _).mp he
      rw [← this]
  · intro h1 h2
    unfold checkForErrors responseCodes
    rw [h1, h2]
    rfl

/-- Witness for C2: the empty map raises nothing (via the theorem), and
an error entry yields the offending code/message as first find. -/
theorem C2_checkForErrors_witness :
    checkForErrors [] = .ok () ∧
    (responseCodes [("HIRMG", ["HIRMG:2:2+9000::Error message"])]).find? isErrCode =
      some ("9000", "Error message") :=
  ⟨(C2_checkForErrors []).2.2 rfl rfl,
   (C2_checkForErrors [("HIRMG", ["HIRMG:2:2+9000::Error message"])]).2.1
     ⟨"9000", "Error message"⟩ (by decide)⟩

/-- Claim C8: `extractDialogId` fails with the missing-segment error iff
the map has no `HNHBK` entry; otherwise it returns the dialog-id element
of the first `HNHBK` entry, with `"0"` substituted when absent. -/
theorem C8_extractDialogId (m : SegmentMap) :
    (extractDialogId m = .error "Invalid response: Missing HNHBK segment" ↔
      entriesOf m "HNHBK" = []) ∧
    (∀ seg rest, entriesOf m "HNHBK" = seg :: rest →
      extractDialogId m = .ok (dialogIdOf seg)) := by
  constructor
  · cases h : entriesOf m "HNHBK" with
    | nil => simp [extractDialogId, h]
    | cons seg rest => simp [extractDialogId, h]
  · intro seg rest h
    simp [extractDialogId, h]

/-- Witness for C8 at the concrete maps of the shipped tests. -/
theorem C8_extractDialogId_witness :
    extractDialogId [] = .error "Invalid response: Missing HNHBK segment" ∧
    extractDialogId [("HNHBK", ["HNHBK:1:3+000000000150+300+DIALOG123+1"])] =
      .ok "DIALOG123" := by
  constructor
  · exact (C8_extractDialogId []).1.mpr rfl
  · have h := (C8_extractDialogId [("HNHBK", ["HNHBK:1:3+000000000150+300+DIALOG123+1"])]).2
      "HNHBK:1:3+000000000150+300+DIALOG123+1" [] rfl
    rw [h]
    decide

/-- Claim C7: `checkTanRequired` returns none when the map has no `HITAN`
entry, and also when both the TAN process indicator and the challenge
text of the first `HITAN` entry are blank; whenever it returns a
challenge the challenge text is non-blank, the non-empty default being
substituted exactly when the extracted text alone is blank. -/
theorem C7_checkTanRequired (m : SegmentMap) :
    (entriesOf m "HITAN" = [] → checkTanRequired m = none) ∧
    (∀ seg rest, entriesOf m "HITAN" = seg :: rest →
      (checkTanRequired m = none ↔
        ((extractElements seg).getD 0 "" = "" ∧ (extractElements seg).getD 3 "" = ""))) ∧
    (∀ c, checkTanRequired m = some c → c.challengeText ≠ "") ∧
    (∀ seg rest, entriesOf m "HITAN" = seg :: rest →
      (extractElements seg).getD 3 "" = "" →
      ∀ c, checkTanRequired m = some c → c.challengeText = defaultChallengeText) := by
  refine ⟨?_, ?_, ?_, ?_⟩
  · intro h
    simp [checkTanRequired, h]
  · intro seg rest h
    simp only [checkTanRequired, h]
    by_cases hb : (extractElements seg).getD 0 "" = "" ∧ (extractElements seg).getD 3 "" = ""
    · simp [hb]
    · simp [hb]
  · intro c hc
    unfold checkTanRequired at hc
    cases h : entriesOf m "HITAN" with
    | nil => rw [h] at hc; exact absurd hc (by simp)
    | cons seg rest =>
      rw [h] at hc
      dsimp only at hc
      by_cases hb : (extractElements seg).getD 0 "" = "" ∧ (extractElements seg).getD 3 "" = ""
      · rw [if_pos hb] at hc
        exact absurd hc (by simp)
      · rw [if_neg hb] at hc
        have hc' := (Option.some.injEq _ _).mp hc
        rw [← hc']
        dsimp only
        by_cases ht : (extractElements seg).getD 3 "" = ""
        · rw [if_pos ht]
          decide
        · rw [if_neg ht]
          exact ht
  · intro seg rest h ht c hc
    unfold checkTanRequired at hc
    rw [h] at hc
    dsimp only at hc
    by_cases hb : (extractElements seg).getD 0 "" = "" ∧ (extractElements seg).getD 3 "" = ""
    · rw [if_pos hb] at hc
      exact absurd hc (by simp)
    · rw [if_neg hb] at hc
      have hc' := (Option.some.injEq _ _).mp hc
      rw [← hc']
      dsimp only
      rw [if_pos ht]

/-- Witness for C7 at the concrete maps of the shipped tests. -/
theorem C7_checkTanRequired_witness :
    checkTanRequired [] = none ∧
    checkTanRequired [("HNHBK", ["HNHBK:1:3+000000000150+300+DIALOG123+1"]),
      ("HITAN", ["HITAN:4:6:5++++"])] = none :=
  ⟨(C7_checkTanRequired []).1 rfl,
   (C7_checkTanRequired [("HNHBK", ["HNHBK:1:3+000000000150+300+DIALOG123+1"]),
      ("HITAN", ["HITAN:4:6:5++++"])]).2.1 "HITAN:4:6:5++++" [] (by decide)
      |>.mpr (by decide)⟩

/-! ### Escaping round trip -/

theorem encodeChar_ne_nil (c : Char) : encodeChar c ≠ [] := by
  unfold encodeChar
  split <;> simp

theorem flatMap_encode_nil (t : List Char) (h : t.flatMap encodeChar = []) : t = [] := by
  cases t with
  | nil => rfl
  | cons a t' =>
    rw [List.flatMap_cons] at h
    rcases List.append_eq_nil.mp h with ⟨h1, _⟩
    exact absurd h1 (encodeChar_ne_nil a)

theorem encode_head_not_reserved (t : List Char) (d : Char) (rest : List Char)
    (h : t.flatMap encodeChar = d :: rest) : isReserved d = false := by
  cases t with
  | nil => simp at h
  | cons a t' =>
    rw [List.flatMap_cons] at h
    unfold encodeChar at h
    by_cases ha : isReserved a = true
    · rw [if_pos ha] at h
      have : d = '?' := by
        have := congrArg (fun l => l.headD ' ') h
        simpa using this.symm
      rw [this]
      decide
    · rw [if_neg ha] at h
      have : d = a := by
        have := congrArg (fun l => l.headD ' ') h
        simpa using this.symm
      rw [this]
      simpa using ha

theorem unescape_encode (l : List Char) : unescapeEl (l.flatMap encodeChar) = l := by
  induction l with
  | nil => rfl
  | cons c t ih =>
    rw [List.flatMap_cons]
    unfold encodeChar
    by_cases hr : isReserved c = true
    · rw [if_pos hr]
      show unescapeEl ('?' :: c :: t.flatMap encodeChar) = c :: t
      unfold unescapeEl
      rw [if_pos rfl]
      simp only [hr, if_true]
      rw [ih]
    · rw [if_neg hr]
      show unescapeEl (c :: t.flatMap encodeChar) = c :: t
      by_cases hq : c = '?'
      · subst hq
        unfold unescapeEl
        rw [if_pos rfl]
        cases hx : t.flatMap encodeChar with
        | nil =>
          rw [flatMap_encode_nil t hx]
        | cons d rest' =>
          have hd : isReserved d = false := encode_head_not_reserved t d rest' hx
          dsimp only
          rw [hd]
          simp only [Bool.false_eq_true, if_false]
          rw [← hx, ih]
      · unfold unescapeEl
        rw [if_neg hq, ih]

/-- Claim C5: for every text containing any of the reserved characters
`+`, `:`, `@`, `'`, encoding with `encodeFinTS` and then unescaping as
`extractElements` does (`?X → X` for the reserved characters) yields the
original text unchanged. -/
theorem C5_encode_unescape (s : String) (_h : s.data.any isReserved = true) :
    String.mk (unescapeEl (encodeFinTS s).data) = s := by
  show String.mk (unescapeEl (s.data.flatMap encodeChar)) = s
  rw [unescape_encode]

/-- Witness for C5 at a text containing all four reserved characters. -/
theorem C5_encode_unescape_witness :
    String.mk (unescapeEl (encodeFinTS ("a+b:c@d" ++ quoteStr ++ "e")).data) =
      "a+b:c@d" ++ quoteStr ++ "e" :=
  C5_encode_unescape ("a+b:c@d" ++ quoteStr ++ "e") (by decide)

/-! ### Parsing: grouping and graceful degradation -/

theorem splitUnescaped_cons (q c : Char) (rest : List Char) :
    splitUnescaped q (c :: rest) =
      if c = '?' then
        (match rest with
         | [] => [[c]]
         | d :: rest' => prependHead [c, d] (splitUnescaped q rest'))
      else if c = q then [] :: splitUnescaped q rest
      else prependHead [c] (splitUnescaped q rest) := by
  rw [splitUnescaped.eq_def]

theorem prependHead_chars (pre : List Char) (ps : List (List Char)) (p : List Char)
    (hp : p ∈ prependHead pre ps) (c : Char) (hc : c ∈ p) :
    c ∈ pre ∨ ∃ h ∈ ps, c ∈ h := by
  cases ps with
  | nil =>
    simp only [prependHead, List.mem_singleton] at hp
    subst hp
    exact .inl hc
  | cons h t =>
    simp only [prependHead, List.mem_cons] at hp
    rcases hp with rfl | hp
    · rcases List.mem_append.mp hc with h1 | h2
      · exact .inl h1
      · exact .inr ⟨h, by simp, h2⟩
    · exact .inr ⟨p, by simp [hp], hc⟩

theorem splitUnescaped_chars_aux (q : Char) :
    ∀ (n : Nat) (l : List Char), l.length ≤ n → ∀ p ∈ splitUnescaped q l, ∀ c ∈ p, c ∈ l := by
  intro n
  induction n with
  | zero =>
    intro l hl p hp c hc
    cases l with
    | nil =>
      simp only [splitUnescaped, List.mem_singleton] at hp
      subst hp
      simp at hc
    | cons a rest => simp at hl
  | succ n ih =>
    intro l hl p hp c hc
    cases l with
    | nil =>
      simp only [splitUnescaped, List.mem_singleton] at hp
      subst hp
      simp at hc
    | cons a rest =>
      rw [splitUnescaped_cons] at hp
      by_cases hq : a = '?'
      · rw [if_pos hq] at hp
        cases rest with
        | nil =>
          simp only [List.mem_singleton] at hp
          subst hp
          simpa using hc
        | cons d rest' =>
          rcases prependHead_chars _ _ _ hp c hc with h1 | ⟨h', hh', hch'⟩
          · simp only [List.mem_cons, List.not_mem_nil, or_false] at h1
            rcases h1 with rfl | rfl <;> simp
          · have hmem := ih rest' (by simp at hl ⊢; omega) h' hh' c hch'
            simp [hmem]
      · rw [if_neg hq] at hp
        by_cases hdq : a = q
        · rw [if_pos hdq] at hp
          rcases List.mem_cons.mp hp with rfl | hp'
          · simp at hc
          · have hmem := ih rest (by simp at hl; omega) p hp' c hc
            simp [hmem]
        · rw [if_neg hdq] at hp
          rcases prependHead_chars _ _ _ hp c hc with h1 | ⟨h', hh', hch'⟩
          · simp only [List.mem_singleton] at h1
            subst h1
            simp
          · have hmem := ih rest (by simp at hl; omega) h' hh' c hch'
            simp [hmem]

theorem splitUnescaped_chars (q : Char) (l : List Char) (p : List Char)
    (hp : p ∈ splitUnescaped q l) (c : Char) (hc : c ∈ p) : c ∈ l :=
  splitUnescaped_chars_aux q l.length l le_rfl p hp c hc

theorem isUpperAlpha_ws (c : Char) (h : c.isWhitespace = true) : isUpperAlpha c = false := by
  by_cases h1 : c = ' '
  · subst h1; decide
  by_cases h2 : c = '\t'
  · subst h2; decide
  by_cases h3 : c = '\x0d'
  · subst h3; decide
  by_cases h4 : c = '\n'
  · subst h4; decide
  exfalso
  simp [Char.isWhitespace, h1, h2, h3, h4] at h

theorem validHeader_ws (p : List Char) (h : ∀ c ∈ p, c.isWhitespace = true) :
    validHeader p = false := by
  cases p with
  | nil => decide
  | cons c rest =>
    have hc := isUpperAlpha_ws c (h c (by simp))
    simp [validHeader, List.takeWhile_cons, hc]

theorem entriesOf_insertAppend (m : SegmentMap) (k v ty : String) :
    entriesOf (insertAppend m k v) ty =
      entriesOf m ty ++ (if ty = k then [v] else []) := by
  induction m with
  | nil =>
    by_cases hk : k = ty
    · subst hk
      simp [insertAppend, entriesOf, lookupSM]
    · have hk' : ¬ ty = k := fun h => hk h.symm
      simp [insertAppend, entriesOf, lookupSM, hk, hk']
  | cons kv rest ih =>
    obtain ⟨k₀, vs⟩ := kv
    by_cases h0 : k₀ = k
    · subst h0
      by_cases h0' : k₀ = ty
      · subst h0'
        simp [insertAppend, entriesOf, lookupSM]
      · have h0'' : ¬ ty = k₀ := fun h => h0' h.symm
        simp [insertAppend, entriesOf, lookupSM, h0', h0'']
    · by_cases h0' : k₀ = ty
      · subst h0'
        simp [insertAppend, entriesOf, lookupSM, h0]
      · have h1 : entriesOf ((k₀, vs) :: insertAppend rest k v) ty =
            entriesOf (insertAppend rest k v) ty := by
          simp [entriesOf, lookupSM, h0']
        have h2 : entriesOf ((k₀, vs) :: rest) ty = entriesOf rest ty := by
          simp [entriesOf, lookupSM, h0']
        simp only [insertAppend, h0, if_false]
        rw [h1, h2, ih]

theorem entriesOf_foldl (ps : List (List Char)) :
    ∀ (m : SegmentMap) (ty : String),
      entriesOf (ps.foldl insertPart m) ty =
        entriesOf m ty ++
          (ps.filter (fun p => validHeader p && (segType p == ty))).map String.mk := by
  induction ps with
  | nil =>
    intro m ty
    simp
  | cons p ps ih =>
    intro m ty
    rw [List.foldl_cons, ih]
    by_cases hv : validHeader p = true
    · by_cases hty : segType p = ty
      · have hstep : insertPart m p = insertAppend m (segType p) (String.mk p) := if_pos hv
        rw [hstep, entriesOf_insertAppend, hty]
        have hfil : List.filter (fun p => validHeader p && (segType p == ty)) (p :: ps) =
            p :: List.filter (fun p => validHeader p && (segType p == ty)) ps := by
          simp [List.filter_cons, hv, hty]
        rw [hfil]
        simp
      · have hstep : insertPart m p = insertAppend m (segType p) (String.mk p) := if_pos hv
        rw [hstep, entriesOf_insertAppend]
        have hty' : ¬ ty = segType p := fun h => hty h.symm
        rw [if_neg hty']
        have hfil : List.filter (fun p => validHeader p && (segType p == ty)) (p :: ps) =
            List.filter (fun p => validHeader p && (segType p == ty)) ps := by
          simp [List.filter_cons, hv, hty]
        rw [hfil]
        simp
    · have hstep : insertPart m p = m := if_neg hv
      rw [hstep]
      have hfil : List.filter (fun p => validHeader p && (segType p == ty)) (p :: ps) =
          List.filter (fun p => validHeader p && (segType p == ty)) ps := by
        simp [List.filter_cons, hv]
      rw [hfil]

theorem foldl_insertPart_invalid :
    ∀ (ps : List (List Char)) (m : SegmentMap),
      (∀ p ∈ ps, validHeader p = false) → ps.foldl insertPart m = m := by
  intro ps
  induction ps with
  | nil => intro m _; rfl
  | cons p ps ih =>
    intro m hm
    rw [List.foldl_cons]
    have h1 : insertPart m p = m := if_neg (by simp [hm p (by simp)])
    rw [h1]
    exact ih m (fun p hp => hm p (by simp [hp]))

/-- Claim C6: `parseSegments` is total on arbitrary input text and never
raises: for every segment type the map records exactly the valid-header
parts of that type in encounter order under one key (so parts failing
the `<5-6 uppercase letters>:<digits>:<digits>(:<digits>)?` shape are
silently omitted while the remaining valid segments are still
extracted, and duplicates of a type are appended in order); empty or
whitespace-only input yields an empty map. -/
theorem C6_parseSegments (s : String) :
    (∀ ty : String,
      entriesOf (parseSegments s) ty =
        ((splitUnescaped qc s.data).filter
          (fun p => validHeader p && (segType p == ty))).map String.mk) ∧
    (s.data.all Char.isWhitespace = true → parseSegments s = []) := by
  constructor
  · intro ty
    unfold parseSegments buildMap
    rw [entriesOf_foldl]
    simp [entriesOf, lookupSM]
  · intro hws
    unfold parseSegments buildMap
    have hinv : ∀ p ∈ splitUnescaped qc s.data, validHeader p = false := by
      intro p hp
      apply validHeader_ws
      intro c hc
      have hcl := splitUnescaped_chars qc s.data p hp c hc
      exact List.all_eq_true.mp hws c hcl
    exact foldl_insertPart_invalid _ [] hinv

/-- Witness for C6 at the whitespace-only input of the shipped tests. -/
theorem C6_parseSegments_witness : parseSegments "   \n\t  " = [] :=
  (C6_parseSegments "   \n\t  ").2 (by decide)

/-! ### Date formatting -/

/-- A date input as accepted by `formatFinTSDate`: either a Date value
(modelled by its calendar components, which is what the missing
implementation reads off the Date object) or an ISO date / date-time
string. -/
inductive DateInput where
  | date (year month day : Nat)
  | str (s : String)

/-- Modelled from the spec: parsing of the date part of an ISO
`YYYY-MM-DD` / `YYYY-MM-DDThh:mm:ssZ` string (everything before `T`). -/
def parseISODate (s : String) : Option (Nat × Nat × Nat) :=
  let datePart := s.data.takeWhile (fun c => c ≠ 'T')
  match splitPlain '-' datePart with
  | [y, mo, d] =>
    if (y.length == 4) && (mo.length == 2) && (d.length == 2) &&
        (y ++ mo ++ d).all isDigitCh then
      some (parseDigits y, parseDigits mo, parseDigits d)
    else none
  | _ => none

/-- Zero-padded `YYYYMMDD` rendering of calendar components. -/
def formatYMD (y mo d : Nat) : String :=
  String.mk (padZeros 4 (natDigits y) ++ padZeros 2 (natDigits mo) ++ padZeros 2 (natDigits d))

/-- Modelled from the spec: `formatFinTSDate` of the missing `utils.ts` —
the 8-digit digits-only `YYYYMMDD` form used in outbound fetch-request
segments, for Date objects and ISO date/date-time strings alike. -/
def formatFinTSDate : DateInput → String
  | .date y mo d => formatYMD y mo d
  | .str s =>
    match parseISODate s with
    | some (y, mo, d) => formatYMD y mo d
    | none => ""

/-- Gregorian leap-year rule. -/
def isLeapYear (y : Nat) : Bool := (y % 4 == 0 && !(y % 100 == 0)) || y % 400 == 0

/-- Days in a month of the Gregorian calendar. -/
def daysInMonth (y mo : Nat) : Nat :=
  if mo = 2 then (if isLeapYear y then 29 else 28)
  else if mo = 4 ∨ mo = 6 ∨ mo = 9 ∨ mo = 11 then 30
  else 31

/-- A valid calendar date with a 4-digit year. -/
def validDate (y mo d : Nat) : Prop :=
  1 ≤ y ∧ y ≤ 9999 ∧ 1 ≤ mo ∧ mo ≤ 12 ∧ 1 ≤ d ∧ d ≤ daysInMonth y mo

instance validDate_decidable (y mo d : Nat) : Decidable (validDate y mo d) := by
  unfold validDate
  infer_instance

theorem daysInMonth_le (y mo : Nat) : daysInMonth y mo ≤ 31 := by
  unfold daysInMonth
  split
  · split <;> omega
  · split <;> omega

example : formatFinTSDate (.str "2024-01-15") = "20240115" := by decide

example : formatFinTSDate (.str "2024-12-31") = "20241231" := by decide

example : formatFinTSDate (.date 2024 1 1) = "20240101" := by decide

/-- Claim C10: `formatFinTSDate` maps every valid calendar date — given
as a Date value or as an ISO date/date-time string — to the 8-digit
digits-only `YYYYMMDD` form; in particular `2024-06-15T10:30:00Z` maps
to `20240615`. -/
theorem C10_formatFinTSDate :
    (∀ y mo d, validDate y mo d →
      (formatFinTSDate (.date y mo d)).length = 8 ∧
      (∀ c ∈ (formatFinTSDate (.date y mo d)).data, isDigitCh c = true) ∧
      parseDigits (formatFinTSDate (.date y mo d)).data = y * 10000 + mo * 100 + d) ∧
    (∀ s y mo d, parseISODate s = some (y, mo, d) →
      formatFinTSDate (.str s) = formatFinTSDate (.date y mo d)) ∧
    formatFinTSDate (.str "2024-06-15T10:30:00Z") = "20240615" := by
  refine ⟨?_, ?_, by decide⟩
  · intro y mo d hv
    obtain ⟨hy1, hy2, hm1, hm2, hd1, hd2⟩ := hv
    have hd3 : d ≤ 31 := le_trans hd2 (daysInMonth_le y mo)
    have hylen : (natDigits y).length ≤ 4 := natDigits_len_le 3 y (by omega)
    have hmlen : (natDigits mo).length ≤ 2 := natDigits_len_le 1 mo (by omega)
    have hdlen : (natDigits d).length ≤ 2 := natDigits_len_le 1 d (by omega)
    have hYlen : (padZeros 4 (natDigits y)).length = 4 := by
      rw [padZeros_length]; omega
    have hMlen : (padZeros 2 (natDigits mo)).length = 2 := by
      rw [padZeros_length]; omega
    have hDlen : (padZeros 2 (natDigits d)).length = 2 := by
      rw [padZeros_length]; omega
    refine ⟨?_, ?_, ?_⟩
    · show (formatYMD y mo d).length = 8
      rw [strLength_data]
      show (padZeros 4 (natDigits y) ++ padZeros 2 (natDigits mo) ++
        padZeros 2 (natDigits d)).length = 8
      simp [List.length_append, hYlen, hMlen, hDlen]
    · show ∀ c ∈ (formatYMD y mo d).data, isDigitCh c = true
      show ∀ c ∈ padZeros 4 (natDigits y) ++ padZeros 2 (natDigits mo) ++
        padZeros 2 (natDigits d), isDigitCh c = true
      intro c hc
      rcases List.mem_append.mp hc with hc' | hc'
      · rcases List.mem_append.mp hc' with hc'' | hc''
        · exact padZeros_digits _ _ (natDigits_digits y) c hc''
        · exact padZeros_digits _ _ (natDigits_digits mo) c hc''
      · exact padZeros_digits _ _ (natDigits_digits d) c hc'
    · show parseDigits (formatYMD y mo d).data = y * 10000 + mo * 100 + d
      show parseDigits (padZeros 4 (natDigits y) ++ padZeros 2 (natDigits mo) ++
        padZeros 2 (natDigits d)) = y * 10000 + mo * 100 + d
      rw [parseDigits_append, parseDigits_append, hDlen, hMlen,
        parseDigits_padZeros, parseDigits_padZeros, parseDigits_padZeros,
        parseDigits_natDigits, parseDigits_natDigits, parseDigits_natDigits]
      ring
  · intro s y mo d h
    show (match parseISODate s with
      | some (y, mo, d) => formatYMD y mo d
      | none => "") = formatYMD y mo d
    rw [h]

/-- Witness for C10 at the concrete date of the shipped tests. -/
theorem C10_formatFinTSDate_witness :
    parseDigits (formatFinTSDate (.date 2024 6 15)).data = 2024 * 10000 + 6 * 100 + 15 ∧
    formatFinTSDate (.str "2024-06-15") = formatFinTSDate (.date 2024 6 15) :=
  ⟨(C10_formatFinTSDate.1 2024 6 15 (by decide)).2.2,
   C10_formatFinTSDate.2.1 "2024-06-15" 2024 6 15 (by decide)⟩

/-! ### Sensitive data scrubber -/

/-- Drop a literal character sequence from the front of a list, or fail. -/
def dropLit : List Char → List Char → Option (List Char)
  | [], l => some l
  | _ :: _, [] => none
  | p :: ps, c :: cs => if c = p then dropLit ps cs else none

/-- Modelled from the spec: the PIN-payload pattern inside signature
segments — `HNSHA:<num>:<ver>+<ref>++<pin>` with the pin (up to the
terminating `'`) replaced by `***`.  Returns the replacement text and
the number of characters consumed. -/
def tryHNSHA (l : List Char) : Option (List Char × Nat) :=
  match dropLit "HNSHA:".data l with
  | none => none
  | some r0 =>
    let d1 := r0.takeWhile isDigitCh
    if d1.isEmpty then none
    else
      match r0.drop d1.length with
      | ':' :: r1 =>
        let d2 := r1.takeWhile isDigitCh
        if d2.isEmpty then none
        else
          match r1.drop d2.length with
          | '+' :: r2 =>
            let d3 := r2.takeWhile isDigitCh
            if d3.isEmpty then none
            else
              match r2.drop d3.length with
              | '+' :: '+' :: r3 =>
                let pin := r3.takeWhile (fun c => !(c == qc))
                if pin.isEmpty then none
                else some ("HNSHA:".data ++ d1 ++ [':'] ++ d2 ++ ['+'] ++ d3 ++
                    ['+', '+'] ++ "***".data,
                  6 + d1.length + 1 + d2.length + 1 + d3.length + 2 + pin.length)
              | _ => none
          | _ => none
      | _ => none

/-- Modelled from the spec: a user id between `+` delimiters following an
8-digit bank code, replaced by `***`. -/
def tryUserPlus (l : List Char) : Option (List Char × Nat) :=
  match l with
  | '+' :: r0 =>
    let ds := r0.takeWhile isDigitCh
    if ds.length == 8 then
      match r0.drop ds.length with
      | '+' :: r1 =>
        let uid := r1.takeWhile (fun c => !(c == '+'))
        if uid.isEmpty then none
        else some ('+' :: (ds ++ '+' :: "***".data), 1 + 8 + 1 + uid.length)
      | _ => none
    else none
  | _ => none

/-- Modelled from the spec: a user id between `:` delimiters following an
8-digit bank code inside security segments, replaced by `***`. -/
def tryUserColon (l : List Char) : Option (List Char × Nat) :=
  match l with
  | ':' :: r0 =>
    let ds := r0.takeWhile isDigitCh
    if ds.length == 8 then
      match r0.drop ds.length with
      | ':' :: r1 =>
        let uid := r1.takeWhile (fun c => !(c == ':') && !(c == '+') && !(c == qc))
        if uid.isEmpty then none
        else some (':' :: (ds ++ ':' :: "***".data), 1 + 8 + 1 + uid.length)
      | _ => none
    else none
  | _ => none

/-- Modelled from the spec: an IBAN-shaped sequence — 2 letters, 2
digits, up to 30 alphanumerics — keeps the country-code prefix and
replaces the body by `*` repeated to its original length. -/
def tryIBAN (l : List Char) : Option (List Char × Nat) :=
  match l with
  | a :: b :: c :: d :: rest =>
    if isUpperAlpha a && isUpperAlpha b && isDigitCh c && isDigitCh d then
      let body := (rest.takeWhile (fun ch => isUpperAlpha ch || isDigitCh ch)).take 30
      some (a :: b :: List.replicate (2 + body.length) '*', 4 + body.length)
    else none
  | _ => none

/-- Modelled from the spec: a bare 8–10-digit account-number-shaped token
between `+` delimiters, replaced by `***` (the trailing delimiter is not
consumed). -/
def tryAccount (l : List Char) : Option (List Char × Nat) :=
  match l with
  | '+' :: r0 =>
    let ds := r0.takeWhile isDigitCh
    if 8 ≤ ds.length && ds.length ≤ 10 then
      match r0.drop ds.length with
      | '+' :: _ => some ('+' :: "***".data, 1 + ds.length)
      | _ => none
    else none
  | _ => none

/-- A parenthesized free-text device/app name following one marker,
replaced by `(***)`. -/
def tryMarkerApp (marker : String) (l : List Char) : Option (List Char × Nat) :=
  match dropLit marker.data l with
  | none => none
  | some r =>
    let nm := r.takeWhile (fun c => !(c == ')'))
    match r.drop nm.length with
    | ')' :: _ => some (marker.data ++ "***)".data, marker.data.length + nm.length + 1)
    | _ => none

/-- Modelled from the spec: device/app names following the `DKB-App`,
`TAN-App` or `Banking-App` markers, replaced by `(***)`. -/
def tryDevice (l : List Char) : Option (List Char × Nat) :=
  match tryMarkerApp "DKB-App (" l with
  | some r => some r
  | none =>
    match tryMarkerApp "TAN-App (" l with
    | some r => some r
    | none => tryMarkerApp "Banking-App (" l

/-- One scrubbing pass: at each position try the matcher; on a match emit
its replacement and continue after the consumed characters, otherwise
copy one character.  Fuelled by the input length so that it is
structurally recursive. -/
def scrubPassAux (f : List Char → Option (List Char × Nat)) : Nat → List Char → List Char
  | 0, l => l
  | _ + 1, [] => []
  | fuel + 1, c :: rest =>
    match f (c :: rest) with
    | some (repl, k) => repl ++ scrubPassAux f fuel (rest.drop (k - 1))
    | none => c :: scrubPassAux f fuel rest

/-- One scrubbing pass over a whole character list. -/
def scrubPass (f : List Char → Option (List Char × Nat)) (l : List Char) : List Char :=
  scrubPassAux f l.length l

/-- Modelled from the spec: `scrubSensitiveData` of the missing
`utils.ts` — the sequence of independent substitutions: PIN payloads,
user ids between `+` and between `:` delimiters, IBANs, bare account
numbers, device/app names. -/
def scrubSensitiveData (s : String) : String :=
  String.mk (scrubPass tryDevice (scrubPass tryAccount (scrubPass tryIBAN
    (scrubPass tryUserColon (scrubPass tryUserPlus (scrubPass tryHNSHA s.data))))))

/-- No suffix of the text matches any scrubbing pattern: the text
contains none of the sensitive categories. -/
def matcherFree (l : List Char) : Bool :=
  l.tails.all (fun t => (tryHNSHA t).isNone && (tryUserPlus t).isNone &&
    (tryUserColon t).isNone && (tryIBAN t).isNone && (tryAccount t).isNone &&
    (tryDevice t).isNone)

/-- Containment of a character sequence inside another. -/
def containsSeq (needle hay : List Char) : Bool :=
  hay.tails.any (fun t => needle.isPrefixOf t)

theorem scrubPassAux_id (f : List Char → Option (List Char × Nat)) :
    ∀ (fuel : Nat) (l : List Char), (∀ t ∈ l.tails, f t = none) →
      scrubPassAux f fuel l = l := by
  intro fuel
  induction fuel with
  | zero => intro l _; rfl
  | succ fuel ih =>
    intro l h
    cases l with
    | nil => rfl
    | cons c rest =>
      have hc : f (c :: rest) = none := by
        apply h
        rw [List.tails_cons]
        exact List.mem_cons_self _ _
      show (match f (c :: rest) with
        | some (repl, k) => repl ++ scrubPassAux f fuel (rest.drop (k - 1))
        | none => c :: scrubPassAux f fuel rest) = c :: rest
      rw [hc]
      have hrest : ∀ t ∈ rest.tails, f t = none := by
        intro t ht
        apply h
        rw [List.tails_cons]
        exact List.mem_cons_of_mem _ ht
      rw [ih rest hrest]

theorem scrubPass_id (f : List Char → Option (List Char × Nat)) (l : List Char)
    (h : ∀ t ∈ l.tails, f t = none) : scrubPass f l = l :=
  scrubPassAux_id f l.length l h

example : scrubSensitiveData ("HNSHA:5:2+999++secret123" ++ quoteStr) =
    "HNSHA:5:2+999++***" ++ quoteStr := by decide

example : scrubSensitiveData "Account: DE89370400440532013000" =
    "Account: DE" ++ String.mk (List.replicate 20 '*') := by decide

example : scrubSensitiveData ":12345678:username:" = ":12345678:***:" := by decide

example : scrubSensitiveData "+1234567890+A" = "+***+A" := by decide

example : scrubSensitiveData "DKB-App (Samsung SM-G991B)" = "DKB-App (***)" := by decide

example : scrubSensitiveData "TAN-App (iPhone 14)" = "TAN-App (***)" := by decide

example : scrubSensitiveData "Banking-App (Pixel 7)" = "Banking-App (***)" := by decide

example : containsSeq "user12345".data (scrubSensitiveData "+12345678+user12345+A").data =
    false := by decide

/-- Claim C3: `scrubSensitiveData` maps `HNSHA:5:2+999++secret123'` to
`HNSHA:5:2+999++***'`, replaces the IBAN `DE89370400440532013000` by its
2-letter country prefix followed by `*` repeated to the length of the
removed body, leaves no original sensitive substring in the scrubbed
output, and returns text free of every sensitive category identically
(protocol delimiters included). -/
theorem C3_scrubSensitiveData :
    scrubSensitiveData ("HNSHA:5:2+999++secret123" ++ quoteStr) =
      "HNSHA:5:2+999++***" ++ quoteStr ∧
    scrubSensitiveData "DE89370400440532013000" =
      "DE" ++ String.mk (List.replicate 20 '*') ∧
    containsSeq "secret123".data
      (scrubSensitiveData ("HNSHA:5:2+999++secret123" ++ quoteStr)).data = false ∧
    containsSeq "89370400440532013000".data
      (scrubSensitiveData "DE89370400440532013000").data = false ∧
    (∀ s : String, matcherFree s.data = true → scrubSensitiveData s = s) := by
  refine ⟨by decide, by decide, by decide, by decide, ?_⟩
  intro s h
  have hall := List.all_eq_true.mp h
  have g : ∀ t ∈ s.data.tails,
      tryHNSHA t = none ∧ tryUserPlus t = none ∧ tryUserColon t = none ∧
      tryIBAN t = none ∧ tryAccount t = none ∧ tryDevice t = none := by
    intro t ht
    have hb := hall t ht
    simp only [Bool.and_eq_true, Option.isNone_iff_eq_none] at hb
    obtain ⟨⟨⟨⟨⟨h1, h2⟩, h3⟩, h4⟩, h5⟩, h6⟩ := hb
    exact ⟨h1, h2, h3, h4, h5, h6⟩
  have h1 : scrubPass tryHNSHA s.data = s.data :=
    scrubPass_id _ _ (fun t ht => (g t ht).1)
  have h2 : scrubPass tryUserPlus s.data = s.data :=
    scrubPass_id _ _ (fun t ht => (g t ht).2.1)
  have h3 : scrubPass tryUserColon s.data = s.data :=
    scrubPass_id _ _ (fun t ht => (g t ht).2.2.1)
  have h4 : scrubPass tryIBAN s.data = s.data :=
    scrubPass_id _ _ (fun t ht => (g t ht).2.2.2.1)
  have h5 : scrubPass tryAccount s.data = s.data :=
    scrubPass_id _ _ (fun t ht => (g t ht).2.2.2.2.1)
  have h6 : scrubPass tryDevice s.data = s.data :=
    scrubPass_id _ _ (fun t ht => (g t ht).2.2.2.2.2)
  show String.mk (scrubPass tryDevice (scrubPass tryAccount (scrubPass tryIBAN
    (scrubPass tryUserColon (scrubPass tryUserPlus (scrubPass tryHNSHA s.data)))))) = s
  rw [h1, h2, h3, h4, h5, h6]

/-- Witness for C3: text with no sensitive content is returned
identically. -/
theorem C3_scrubSensitiveData_witness : scrubSensitiveData "Hello World" = "Hello World" :=
  C3_scrubSensitiveData.2.2.2.2 "Hello World" (by decide)
